import Mathlib

/-!
Verification of the nearby-station search core of the EV backend.

The embedding follows `app/services/station_service.py`:
* `Station` mirrors the ORM model in `app/models/station.py` (all columns other
  than the primary key are nullable).
* `queryStations` mirrors the SQLAlchemy query built in `get_nearby_stations`:
  a not-None filter on both coordinates, and — only when `min_power` is truthy
  in Python's sense (present and nonzero) — a `power_class_kw >= min_power`
  filter, where a NULL power class never satisfies the SQL comparison.
* `get_nearby_stations` annotates each candidate with its computed distance,
  retains those within the radius, and sorts by distance with a stable sort
  (Python's `list.sort(key=...)` is stable; any stable sort by the same key
  produces the same list, so `List.insertionSort` models it exactly).
* `calculate_distance` is the haversine code of `_calculate_distance`, with
  floating point read as real arithmetic and `math.atan2 y x` as the argument
  of the complex number `x + y*I`.

The pipeline is generic over a linear ordered field so that concrete witnesses
can be evaluated over `ℚ`; the distance-specific facts are proved over `ℝ`.
-/

namespace EvBackend

/-- The `stations` table row of `app/models/station.py`; every column except the
primary key is nullable. -/
structure Station (α : Type) where
  id : Nat
  station_id : String
  name : Option String
  lat : Option α
  lon : Option α
  address : Option String
  city : Option String
  country : Option String
  power_class_kw : Option α
  connectors : Option String
  deriving DecidableEq

/-- A search result: a station together with the ephemeral computed distance the
service attaches to it (`station.distance = distance`). -/
structure ResultEntry (α : Type) where
  station : Station α
  distance : α
  deriving DecidableEq

/-- The coordinate presence filter `Station.lat.isnot(None), Station.lon.isnot(None)`
of the query. -/
def hasCoords {α : Type} (s : Station α) : Bool :=
  s.lat.isSome && s.lon.isSome

/-- The SQL filter `Station.power_class_kw >= min_power`: a NULL power class
never satisfies a SQL comparison, so such rows are excluded. -/
def powerAtLeast {α : Type} [LinearOrderedField α] (p : α) (s : Station α) : Bool :=
  match s.power_class_kw with
  | some pw => decide (p ≤ pw)
  | none => false

/-- The candidate query of `get_nearby_stations`: coordinate-bearing stations,
with the power filter added only under `if min_power:` — Python truthiness, so
`some 0` adds no filter. -/
def queryStations {α : Type} [LinearOrderedField α] (db : List (Station α))
    (min_power : Option α) : List (Station α) :=
  let base := db.filter hasCoords
  match min_power with
  | some p => if p ≠ 0 then base.filter (powerAtLeast p) else base
  | none => base

/-- One loop step: compute the distance from the origin to the station and attach
it.  Candidates always have both coordinates present, so the `getD` defaults are
never reached. -/
def annotate {α : Type} [LinearOrderedField α] (dist : α → α → α → α → α)
    (lat lng : α) (s : Station α) : ResultEntry α :=
  { station := s, distance := dist lat lng (s.lat.getD 0) (s.lon.getD 0) }

/-- The loop of `get_nearby_stations`: annotate every candidate with its distance
and keep those with `distance <= radius`. -/
def retained {α : Type} [LinearOrderedField α] (dist : α → α → α → α → α)
    (stations : List (Station α)) (lat lng radius : α) (min_power : Option α) :
    List (ResultEntry α) :=
  ((queryStations stations min_power).map (annotate dist lat lng)).filter
    (fun e => decide (e.distance ≤ radius))

/-- The sort key comparison of `nearby_stations.sort(key=lambda x: x.distance)`. -/
def distLE {α : Type} [LinearOrderedField α] (a b : ResultEntry α) : Prop :=
  a.distance ≤ b.distance

instance {α : Type} [LinearOrderedField α] :
    DecidableRel (distLE : ResultEntry α → ResultEntry α → Prop) :=
  fun a b => inferInstanceAs (Decidable (a.distance ≤ b.distance))

instance {α : Type} [LinearOrderedField α] : IsTotal (ResultEntry α) distLE :=
  ⟨fun a b => le_total a.distance b.distance⟩

instance {α : Type} [LinearOrderedField α] : IsTrans (ResultEntry α) distLE :=
  ⟨fun _ _ _ hab hbc => le_trans hab hbc⟩

/-- The service entry point `StationService.get_nearby_stations`.  The repository
fetch is modelled as an
`Except` value; the `try/except` returns `[]` on any fetch error.  The body
queries candidates, retains those within the radius and stably sorts them by
ascending distance. -/
def get_nearby_stations {α : Type} [LinearOrderedField α] (dist : α → α → α → α → α)
    (db : Except String (List (Station α))) (lat lng radius : α)
    (min_power : Option α) : List (ResultEntry α) :=
  match db with
  | .error _ => []
  | .ok stations =>
      List.insertionSort distLE (retained dist stations lat lng radius min_power)

/-- The client-side alternative the spec asserts equivalence with (§4.2 step 1):
fetch all coordinate-bearing stations, post-filter by "power class known and at
least the threshold", then run the same distance step and sort. -/
def get_nearby_stations_postfilter {α : Type} [LinearOrderedField α]
    (dist : α → α → α → α → α) (stations : List (Station α))
    (lat lng radius p : α) : List (ResultEntry α) :=
  let candidates := (stations.filter hasCoords).filter (powerAtLeast p)
  List.insertionSort distLE
    ((candidates.map (annotate dist lat lng)).filter
      (fun e => decide (e.distance ≤ radius)))

noncomputable section

/-- Degree-to-radian conversion, `math.radians`. -/
def radians (x : ℝ) : ℝ := x * Real.pi / 180

/-- Two-argument arctangent `math.atan2 y x`: the angle of the point `(x, y)`,
in `(-π, π]`. -/
def atan2 (y x : ℝ) : ℝ := Complex.arg ⟨x, y⟩

/-- The intermediate `a` of `_calculate_distance`, with `dlat` and `dlon`
inlined. -/
def hav_a (lat1 lon1 lat2 lon2 : ℝ) : ℝ :=
  Real.sin (radians (lat2 - lat1) / 2) * Real.sin (radians (lat2 - lat1) / 2) +
    Real.cos (radians lat1) * Real.cos (radians lat2) *
      Real.sin (radians (lon2 - lon1) / 2) * Real.sin (radians (lon2 - lon1) / 2)

/-- The intermediate `c` of `_calculate_distance`. -/
def hav_c (lat1 lon1 lat2 lon2 : ℝ) : ℝ :=
  2 * atan2 (Real.sqrt (hav_a lat1 lon1 lat2 lon2))
    (Real.sqrt (1 - hav_a lat1 lon1 lat2 lon2))

/-- The distance function `StationService._calculate_distance`: haversine with
Earth radius 6371 km. -/
def calculate_distance (lat1 lon1 lat2 lon2 : ℝ) : ℝ :=
  6371 * hav_c lat1 lon1 lat2 lon2

end

/-- A concrete distance function for evaluating witnesses over `ℚ`. -/
def dist0 : ℚ → ℚ → ℚ → ℚ → ℚ := fun _ _ _ _ => 0

/-- A concrete station at the origin with a known 50 kW power class. -/
def stationQ : Station ℚ :=
  { id := 1, station_id := "q1", name := none, lat := some 0, lon := some 0,
    address := none, city := none, country := none, power_class_kw := some 50,
    connectors := none }

/-- A concrete station at the origin with an absent power class. -/
def stationNoPowerR : Station ℝ :=
  { id := 1, station_id := "s1", name := none, lat := some 0, lon := some 0,
    address := none, city := none, country := none, power_class_kw := none,
    connectors := none }

/-! ### Facts about the distance function -/

theorem atan2_nonneg (y x : ℝ) (h : 0 ≤ y) : 0 ≤ atan2 y x :=
  Complex.arg_nonneg_iff.mpr h

theorem atan2_zero_one : atan2 0 1 = 0 := by
  have h : (⟨1, 0⟩ : ℂ) = 1 := by
    apply Complex.ext <;> simp
  rw [atan2, h, Complex.arg_one]

theorem hav_a_self (lat lon : ℝ) : hav_a lat lon lat lon = 0 := by
  simp [hav_a, radians]

@[simp]
theorem calculate_distance_self (lat lon : ℝ) : calculate_distance lat lon lat lon = 0 := by
  simp [calculate_distance, hav_c, hav_a_self, atan2_zero_one]

theorem hav_a_symm (lat1 lon1 lat2 lon2 : ℝ) :
    hav_a lat1 lon1 lat2 lon2 = hav_a lat2 lon2 lat1 lon1 := by
  unfold hav_a radians
  have h1 : (lat1 - lat2) * Real.pi / 180 / 2 = -((lat2 - lat1) * Real.pi / 180 / 2) := by
    ring
  have h2 : (lon1 - lon2) * Real.pi / 180 / 2 = -((lon2 - lon1) * Real.pi / 180 / 2) := by
    ring
  rw [h1, h2, Real.sin_neg, Real.sin_neg]
  ring

theorem calculate_distance_nonneg (lat1 lon1 lat2 lon2 : ℝ) :
    0 ≤ calculate_distance lat1 lon1 lat2 lon2 := by
  have h := atan2_nonneg (Real.sqrt (hav_a lat1 lon1 lat2 lon2))
    (Real.sqrt (1 - hav_a lat1 lon1 lat2 lon2)) (Real.sqrt_nonneg _)
  unfold calculate_distance hav_c
  nlinarith

/-! ### Membership in the result -/

theorem mem_get_nearby {α : Type} [LinearOrderedField α] {dist : α → α → α → α → α}
    {stations : List (Station α)} {lat lng radius : α} {min_power : Option α}
    {e : ResultEntry α} :
    e ∈ get_nearby_stations dist (.ok stations) lat lng radius min_power ↔
      e ∈ retained dist stations lat lng radius min_power := by
  simp [get_nearby_stations, List.mem_insertionSort]

theorem mem_retained {α : Type} [LinearOrderedField α] {dist : α → α → α → α → α}
    {stations : List (Station α)} {lat lng radius : α} {min_power : Option α}
    {e : ResultEntry α} :
    e ∈ retained dist stations lat lng radius min_power ↔
      (∃ s ∈ queryStations stations min_power, annotate dist lat lng s = e) ∧
        e.distance ≤ radius := by
  simp [retained, List.mem_filter, List.mem_map]

theorem queryStations_subset {α : Type} [LinearOrderedField α]
    {stations : List (Station α)} {min_power : Option α} {s : Station α}
    (h : s ∈ queryStations stations min_power) : s ∈ stations := by
  unfold queryStations at h
  match min_power with
  | none => exact List.mem_of_mem_filter h
  | some p =>
      simp only at h
      by_cases hp : p ≠ 0
      · rw [if_pos hp] at h
        exact List.mem_of_mem_filter (List.mem_of_mem_filter h)
      · rw [if_neg hp] at h
        exact List.mem_of_mem_filter h

/-! ### Claim theorems -/

/-- C2: if the repository fetch of candidate stations fails, `get_nearby_stations`
returns the empty sequence instead of propagating the error. -/
theorem repo_error_returns_empty {α : Type} [LinearOrderedField α]
    (dist : α → α → α → α → α) (msg : String) (lat lng radius : α)
    (min_power : Option α) :
    get_nearby_stations dist (.error msg) lat lng radius min_power = [] := rfl

/-- C6: the distance function is symmetric in its two coordinate pairs. -/
theorem calculate_distance_symm (lat1 lon1 lat2 lon2 : ℝ) :
    calculate_distance lat1 lon1 lat2 lon2 = calculate_distance lat2 lon2 lat1 lon1 := by
  unfold calculate_distance hav_c
  rw [hav_a_symm lat1 lon1 lat2 lon2]

/-- C10: supplying `min_power = 0` behaves exactly like supplying no power
threshold at all, because `if min_power:` is false for `0.0`. -/
theorem zero_threshold_same_as_absent {α : Type} [LinearOrderedField α]
    (dist : α → α → α → α → α) (db : Except String (List (Station α)))
    (lat lng radius : α) :
    get_nearby_stations dist db lat lng radius (some 0) =
      get_nearby_stations dist db lat lng radius none := by
  cases db with
  | error msg => rfl
  | ok stations => simp [get_nearby_stations, retained, queryStations]

/-- Evaluating the service on a single power-less station at the origin with the
threshold `0`: the truthiness check skips the power filter, so the station is
returned (at distance `0`). -/
theorem nearby_noPower_eval :
    get_nearby_stations calculate_distance (.ok [stationNoPowerR]) (0 : ℝ) 0 1 (some 0) =
      [⟨stationNoPowerR, 0⟩] := by
  norm_num [get_nearby_stations, retained, queryStations, hasCoords, annotate,
    stationNoPowerR, List.filter]

/-- C1 as stated fails: with threshold `p = 0` supplied, a station whose power
class is absent is still returned. -/
theorem power_filter_zero_counterexample :
    ¬ (∀ e ∈ get_nearby_stations calculate_distance
          (.ok [stationNoPowerR]) (0 : ℝ) 0 1 (some 0),
        ∃ pw, e.station.power_class_kw = some pw ∧ (0 : ℝ) ≤ pw) := by
  intro h
  obtain ⟨pw, hpw, -⟩ :=
    h ⟨stationNoPowerR, 0⟩ (by rw [nearby_noPower_eval]; exact List.mem_singleton.mpr rfl)
  simp [stationNoPowerR] at hpw

/-- C1 amended: for every supplied nonzero threshold `p`, every returned station
has a known power class that is `≥ p`; stations with an absent power class are
excluded. -/
theorem power_filter_nonzero_threshold {α : Type} [LinearOrderedField α]
    (dist : α → α → α → α → α) (lat lng radius p : α) (stations : List (Station α))
    (hp : p ≠ 0) (e : ResultEntry α)
    (he : e ∈ get_nearby_stations dist (.ok stations) lat lng radius (some p)) :
    ∃ pw, e.station.power_class_kw = some pw ∧ p ≤ pw := by
  rw [mem_get_nearby, mem_retained] at he
  obtain ⟨⟨s, hs, hse⟩, -⟩ := he
  rw [queryStations, if_pos hp] at hs
  have hpow := List.of_mem_filter hs
  rw [powerAtLeast] at hpow
  match hpw : s.power_class_kw with
  | some pw =>
      rw [hpw] at hpow
      simp only [decide_eq_true_eq] at hpow
      exact ⟨pw, by rw [← hse, annotate, hpw], hpow⟩
  | none => rw [hpw] at hpow; exact absurd hpow (by simp)

theorem power_filter_nonzero_threshold_witness :
    ∃ pw, (ResultEntry.mk stationQ (0 : ℚ)).station.power_class_kw = some pw ∧
      (10 : ℚ) ≤ pw :=
  power_filter_nonzero_threshold dist0 0 0 1 10 [stationQ] (by norm_num)
    ⟨stationQ, 0⟩ (by decide)

/-- C3: the result is sorted by non-decreasing distance (every pair of
consecutive entries), and for each distance value the entries carrying it appear
exactly as in the pre-sort retained list — which itself preserves the
repository's return order — so ties keep the repository order (stable sort, no
secondary key). -/
theorem result_sorted_and_stable {α : Type} [LinearOrderedField α]
    (dist : α → α → α → α → α) (stations : List (Station α)) (lat lng radius : α)
    (min_power : Option α) :
    List.Chain' (fun a b : ResultEntry α => a.distance ≤ b.distance)
      (get_nearby_stations dist (.ok stations) lat lng radius min_power) ∧
    ∀ d : α,
      (get_nearby_stations dist (.ok stations) lat lng radius min_power).filter
          (fun e => decide (e.distance = d)) =
        (retained dist stations lat lng radius min_power).filter
          (fun e => decide (e.distance = d)) := by
  constructor
  · exact (List.sorted_insertionSort distLE _).chain'
  · intro d
    set l := retained dist stations lat lng radius min_power with hl
    set p : ResultEntry α → Bool := fun e => decide (e.distance = d) with hp
    have hall : ∀ a ∈ l.filter p, ∀ b ∈ l.filter p, distLE a b := by
      intro a ha b hb
      have ha2 := List.of_mem_filter ha
      have hb2 := List.of_mem_filter hb
      rw [hp] at ha2 hb2
      simp only [decide_eq_true_eq] at ha2 hb2
      show a.distance ≤ b.distance
      rw [ha2, hb2]
    have hF : (l.filter p).Pairwise distLE := List.pairwise_of_forall_mem_list hall
    have hsub : List.Sublist (l.filter p) (List.insertionSort distLE l) :=
      List.sublist_insertionSort hF (List.filter_sublist l)
    have hfix : (l.filter p).filter p = l.filter p :=
      List.filter_eq_self.mpr (fun a ha => List.of_mem_filter ha)
    have hsub2 : List.Sublist (l.filter p) ((List.insertionSort distLE l).filter p) := by
      have h2 := hsub.filter p
      rwa [hfix] at h2
    have hperm : List.Perm ((List.insertionSort distLE l).filter p) (l.filter p) :=
      (List.perm_insertionSort distLE l).filter p
    have : l.filter p = (List.insertionSort distLE l).filter p :=
      hsub2.eq_of_length hperm.length_eq.symm
    rw [get_nearby_stations]
    exact this.symm

theorem annotated_distance_nonneg {lat lng : ℝ} {l : List (Station ℝ)}
    {e : ResultEntry ℝ} (he : e ∈ l.map (annotate calculate_distance lat lng)) :
    0 ≤ e.distance := by
  obtain ⟨s, -, hse⟩ := List.mem_map.mp he
  rw [← hse]
  exact calculate_distance_nonneg _ _ _ _

/-- C4: with radius `0` the result is exactly the annotated candidates whose
haversine distance from the origin is `0` (in repository order); with any
strictly negative radius the result is empty. -/
theorem zero_and_negative_radius (lat lng : ℝ) (min_power : Option ℝ)
    (stations : List (Station ℝ)) :
    (get_nearby_stations calculate_distance (.ok stations) lat lng 0 min_power =
      ((queryStations stations min_power).map
          (annotate calculate_distance lat lng)).filter
        (fun e => decide (e.distance = 0))) ∧
    ∀ radius : ℝ, radius < 0 →
      get_nearby_stations calculate_distance (.ok stations) lat lng radius min_power
        = [] := by
  constructor
  · rw [get_nearby_stations, retained]
    have hcong :
        ((queryStations stations min_power).map
            (annotate calculate_distance lat lng)).filter
          (fun e => decide (e.distance ≤ 0)) =
        ((queryStations stations min_power).map
            (annotate calculate_distance lat lng)).filter
          (fun e => decide (e.distance = 0)) := by
      apply List.filter_congr
      intro e he
      have h0 := annotated_distance_nonneg he
      simp only [decide_eq_decide]
      constructor
      · intro h
        exact le_antisymm h h0
      · intro h
        rw [h]
    rw [hcong]
    apply List.Sorted.insertionSort_eq
    apply List.pairwise_of_forall_mem_list
    intro a ha b hb
    have ha2 := List.of_mem_filter ha
    have hb2 := List.of_mem_filter hb
    simp only [decide_eq_true_eq] at ha2 hb2
    show a.distance ≤ b.distance
    rw [ha2, hb2]
  · intro radius hr
    rw [get_nearby_stations, retained]
    have hnil :
        ((queryStations stations min_power).map
            (annotate calculate_distance lat lng)).filter
          (fun e => decide (e.distance ≤ radius)) = [] := by
      rw [List.filter_eq_nil_iff]
      intro e he
      have h0 := annotated_distance_nonneg he
      simp only [decide_eq_true_eq, not_le]
      exact lt_of_lt_of_le hr h0
    rw [hnil]
    rfl

theorem zero_and_negative_radius_witness :
    (get_nearby_stations calculate_distance (.ok ([] : List (Station ℝ))) 0 0 0 none =
      ((queryStations ([] : List (Station ℝ)) none).map
          (annotate calculate_distance 0 0)).filter
        (fun e => decide (e.distance = 0))) ∧
    get_nearby_stations calculate_distance (.ok ([] : List (Station ℝ))) 0 0 (-1) none
      = [] :=
  ⟨(zero_and_negative_radius 0 0 none []).1,
    (zero_and_negative_radius 0 0 none []).2 (-1) (by norm_num)⟩

/-- C5: for a fixed origin, filter and repository contents, enlarging the radius
can only enlarge the result set — every entry returned at radius `r1 < r2` is
also returned at radius `r2`. -/
theorem radius_monotonic {α : Type} [LinearOrderedField α]
    (dist : α → α → α → α → α) (stations : List (Station α)) (lat lng r1 r2 : α)
    (min_power : Option α) (hr : r1 < r2) (e : ResultEntry α)
    (he : e ∈ get_nearby_stations dist (.ok stations) lat lng r1 min_power) :
    e ∈ get_nearby_stations dist (.ok stations) lat lng r2 min_power := by
  rw [mem_get_nearby, mem_retained] at he ⊢
  exact ⟨he.1, le_trans he.2 (le_of_lt hr)⟩

theorem radius_monotonic_witness :
    (⟨stationQ, (0 : ℚ)⟩ : ResultEntry ℚ) ∈
      get_nearby_stations dist0 (.ok [stationQ]) 0 0 2 none :=
  radius_monotonic dist0 [stationQ] 0 0 1 2 none (by norm_num) ⟨stationQ, 0⟩ (by decide)

/-- C7: a candidate station whose stored coordinate equals the origin exactly is
returned, with computed distance `0`, for every radius `r ≥ 0` (the haversine
yields `0` on identical coordinate pairs). -/
theorem exact_origin_station_included (stations : List (Station ℝ)) (lat lng r : ℝ)
    (min_power : Option ℝ) (s : Station ℝ) (hs : s ∈ queryStations stations min_power)
    (hlat : s.lat = some lat) (hlon : s.lon = some lng) (hr : 0 ≤ r) :
    (⟨s, 0⟩ : ResultEntry ℝ) ∈
      get_nearby_stations calculate_distance (.ok stations) lat lng r min_power := by
  rw [mem_get_nearby, mem_retained]
  refine ⟨⟨s, hs, ?_⟩, hr⟩
  rw [annotate, hlat, hlon]
  simp

theorem exact_origin_station_included_witness :
    (⟨stationNoPowerR, 0⟩ : ResultEntry ℝ) ∈
      get_nearby_stations calculate_distance (.ok [stationNoPowerR]) 0 0 1 none :=
  exact_origin_station_included [stationNoPowerR] 0 0 1 none stationNoPowerR
    (by simp [queryStations, hasCoords, stationNoPowerR]) rfl rfl (by norm_num)

/-- C8 as stated fails: with threshold `0` supplied, the code applies no power
filter at all, while post-filtering by "power class known and ≥ 0" drops a
station with an absent power class. -/
theorem pushdown_postfilter_counterexample :
    ¬ (get_nearby_stations calculate_distance (.ok [stationNoPowerR]) (0 : ℝ) 0 1
          (some 0) =
        get_nearby_stations_postfilter calculate_distance [stationNoPowerR]
          (0 : ℝ) 0 1 0) := by
  rw [nearby_noPower_eval]
  have hpost : get_nearby_stations_postfilter calculate_distance [stationNoPowerR]
      (0 : ℝ) 0 1 0 = [] := by
    simp [get_nearby_stations_postfilter, powerAtLeast, stationNoPowerR, hasCoords,
      List.filter]
  rw [hpost]
  simp

/-- C8 amended: for every supplied nonzero threshold, pushing the power filter
into the repository query yields exactly the same result sequence as fetching all
coordinate-bearing stations and post-filtering before the distance step. -/
theorem pushdown_equals_postfilter_nonzero {α : Type} [LinearOrderedField α]
    (dist : α → α → α → α → α) (stations : List (Station α)) (lat lng radius p : α)
    (hp : p ≠ 0) :
    get_nearby_stations dist (.ok stations) lat lng radius (some p) =
      get_nearby_stations_postfilter dist stations lat lng radius p := by
  rw [get_nearby_stations, get_nearby_stations_postfilter, retained, queryStations]
  rw [if_pos hp]

theorem pushdown_equals_postfilter_nonzero_witness :
    get_nearby_stations dist0 (.ok [stationQ]) (0 : ℚ) 0 1 (some 10) =
      get_nearby_stations_postfilter dist0 [stationQ] 0 0 1 10 :=
  pushdown_equals_postfilter_nonzero dist0 [stationQ] 0 0 1 10 (by norm_num)

/-- C9: the search never alters station data — every result entry consists of one
of the repository's stations, with every persisted field unchanged, and the only
attached datum is the ephemeral computed distance. -/
theorem no_mutation {α : Type} [LinearOrderedField α]
    (dist : α → α → α → α → α) (stations : List (Station α)) (lat lng radius : α)
    (min_power : Option α) (e : ResultEntry α)
    (he : e ∈ get_nearby_stations dist (.ok stations) lat lng radius min_power) :
    e.station ∈ stations ∧ e = annotate dist lat lng e.station := by
  rw [mem_get_nearby, mem_retained] at he
  obtain ⟨⟨s, hs, hse⟩, -⟩ := he
  have hst : e.station = s := by rw [← hse]; rfl
  constructor
  · rw [hst]
    exact queryStations_subset hs
  · rw [hst, hse]

theorem no_mutation_witness :
    (⟨stationQ, (0 : ℚ)⟩ : ResultEntry ℚ).station ∈ [stationQ] ∧
      (⟨stationQ, (0 : ℚ)⟩ : ResultEntry ℚ) =
        annotate dist0 0 0 (⟨stationQ, (0 : ℚ)⟩ : ResultEntry ℚ).station :=
  no_mutation dist0 [stationQ] 0 0 1 none ⟨stationQ, 0⟩ (by decide)

end EvBackend
